import Mathlib

/-!
Shallow embedding of the `trait-set` procedural macro (`src/lib.rs`).

The crate parses semicolon-delimited trait-alias declarations
(`[vis] trait Name[<generics>] = Bound1 + ... + BoundN;`) and renders each
one into a trait declaration plus a blanket implementation.

We embed the data model (`TraitSet`, `ManyTraitSet`), the doc-comment
extraction (`TraitSet::parse_doc`), the parse-time validation (the
where-clause rejection in `impl Parse for TraitSet`), and the rendering
functions (`render_non_generic`, `render_generic`, `render`, and the
batch-level `ManyTraitSet::render`).  Token streams produced by `quote!`
are embedded as structured syntax items (`Item`), keeping every piece of
data the source interpolates and its order.
-/

namespace TraitSetCrate

/-- Embeds `syn::Lit` as far as `parse_doc` inspects it: a string literal
(whose `value()` the code reads) or any other literal kind. -/
inductive Lit where
  | str (value : String)
  | other
deriving DecidableEq, Repr

/-- Embeds `syn::Meta`, the parsed shape of an attribute: a name-value pair
(`#[name = lit]`), a list (`#[name(...)]`) or a bare path (`#[name]`).
Paths are kept as their segment list so that `Path::get_ident` (defined only
for single-segment paths) can be embedded faithfully. -/
inductive Meta where
  | nameValue (path : List String) (lit : Lit)
  | list (path : List String)
  | path (path : List String)
deriving DecidableEq, Repr

/-- Embeds `syn::Attribute` by the outcome of `attr.parse_meta()`: either a
parsed `Meta`, or a malformed attribute on which `parse_meta` fails with the
given message (e.g. `#[foo = bar()]`, whose right-hand side is not a
literal).  `parse_doc` calls `parse_meta()?`, so this outcome is all it can
observe of an attribute. -/
inductive Attribute where
  | meta (m : Meta)
  | malformed (msg : String)
deriving DecidableEq, Repr

/-- The result of `attr.parse_meta()` on an embedded attribute. -/
def Attribute.parseMeta : Attribute → Except String Meta
  | .meta m => .ok m
  | .malformed e => .error e

/-- Embeds `syn::Path::get_ident`: `Some` exactly for a single-segment path. -/
def pathGetIdent : List String → Option String
  | [s] => some s
  | _ => none

/-- Embeds `syn::GenericParam`: a lifetime parameter (which may carry
lifetime bounds, as in `'a: 'b`), a type parameter (which may carry inline
trait bounds, as in `T: Send`), or a const parameter.  Bounds are kept as
opaque token text, as the source never inspects them. -/
inductive GenericParam where
  | lifetime (name : String) (bounds : List String)
  | typeParam (name : String) (bounds : List String)
  | constParam (name : String)
deriving DecidableEq, Repr

/-- The parameter's name, used to reason about collisions. -/
def GenericParam.name : GenericParam → String
  | .lifetime n _ => n
  | .typeParam n _ => n
  | .constParam n => n

/-- Embeds `syn::Generics`: the angle-bracketed parameter list plus the
optional trailing `where` clause (kept as opaque text standing in for the
clause and its span). -/
structure Generics where
  params : List GenericParam
  whereClause : Option String
deriving DecidableEq, Repr

/-- Embeds `syn::Visibility` as far as the source uses it: an opaque
pass-through of the visibility tokens (empty string for inherited/private). -/
structure Visibility where
  tokens : String
deriving DecidableEq, Repr

/-- Embeds the `TraitSet` struct of `src/lib.rs`: one parsed trait alias.
The right-hand side `traits : TypeTraitObject` is kept as its bound list,
each bound being opaque token text the source passes through unexamined. -/
structure TraitSet where
  doc_comment : Option String
  visibility : Visibility
  alias_name : String
  generics : Generics
  traits : List String
deriving DecidableEq, Repr

/-- Accumulating loop of `TraitSet::parse_doc`: walk the attribute list,
propagating any `parse_meta` error (the `?` in the source), and append
`value + "\n"` for every `#[doc = "..."]`-shaped attribute. -/
def parseDocLoop : List Attribute → String → Except String String
  | [], out => .ok out
  | attr :: rest, out =>
    match attr.parseMeta with
    | .error e => .error e
    | .ok m =>
      match m with
      | .nameValue path lit =>
        match pathGetIdent path with
        | some ident =>
          if ident = "doc" then
            match lit with
            | .str docComment => parseDocLoop rest (out ++ docComment ++ "\n")
            | _ => parseDocLoop rest out
          else parseDocLoop rest out
        | none => parseDocLoop rest out
      | _ => parseDocLoop rest out

/-- Embeds `TraitSet::parse_doc`: returns the accumulated doc string when it
is non-empty, `none` otherwise. -/
def parse_doc (attrs : List Attribute) : Except String (Option String) :=
  (parseDocLoop attrs "").map (fun out => if out ≠ "" then some out else none)

/-- The two error shapes the embedded parser can produce: a propagated
`parse_meta` failure, or the where-clause rejection carrying the span of the
offending clause and the fixed message text. -/
inductive ParseError where
  | metaError (msg : String)
  | whereClauseError (span : String) (msg : String)
deriving DecidableEq, Repr

/-- A declaration whose fields have been read off the token stream by
`impl Parse for TraitSet` (visibility, `trait` keyword, name, generics, `=`,
bounds), before `parse_doc` runs and before the where-clause validation. -/
structure RawTraitSet where
  attrs : List Attribute
  visibility : Visibility
  alias_name : String
  generics : Generics
  traits : List String
deriving DecidableEq, Repr

/-- Embeds `impl Parse for TraitSet` past the field reads: run `parse_doc`
on the outer attributes (its `?` propagates the first malformed-meta error),
then reject the declaration when `generics.where_clause` is present, with
`Error::new(where_clause.span(), "Where clause is not allowed for trait alias")`. -/
def TraitSet.parse (raw : RawTraitSet) : Except ParseError TraitSet :=
  match parse_doc raw.attrs with
  | .error e => .error (.metaError e)
  | .ok doc =>
    match raw.generics.whereClause with
    | some wc => .error (.whereClauseError wc "Where clause is not allowed for trait alias")
    | none =>
      .ok { doc_comment := doc
            visibility := raw.visibility
            alias_name := raw.alias_name
            generics := raw.generics
            traits := raw.traits }

/-- The synthesized trait declaration
`#doc_comment #visibility trait #alias_name<#generics>: #bounds {}`.
The doc attribute, when present, is attached to the declaration. -/
structure TraitDecl where
  doc : Option String
  visibility : Visibility
  name : String
  generics : List GenericParam
  supertraits : List String
deriving DecidableEq, Repr

/-- The synthesized blanket implementation
`impl<#generics> #traitName<#traitArgs> for #selfType where #selfType: #whereBounds {}`.
`traitArgs = []` embeds the absence of an angle-bracket list after the trait
name (the non-generic branch emits none). -/
structure ImplDecl where
  generics : List GenericParam
  traitName : String
  traitArgs : List GenericParam
  selfType : String
  whereBounds : List String
deriving DecidableEq, Repr

/-- One top-level item of the output token stream. -/
inductive Item where
  | traitItem (t : TraitDecl)
  | implItem (i : ImplDecl)
deriving DecidableEq, Repr

/-- The universally quantified implementing type parameter the source writes
literally as `_INNER` in both `quote!` blocks. -/
def innerParam : GenericParam := .typeParam "_INNER" []

/-- Embeds `TraitSet::render_non_generic`: the `quote!` block emitting the
doc attribute, the trait declaration with the bounds as supertraits, and
`impl<_INNER> #alias_name for _INNER where _INNER: #bounds {}`. -/
def TraitSet.render_non_generic (ts : TraitSet) : List Item :=
  [ .traitItem { doc := ts.doc_comment
                 visibility := ts.visibility
                 name := ts.alias_name
                 generics := []
                 supertraits := ts.traits }
  , .implItem { generics := [innerParam]
                traitName := ts.alias_name
                traitArgs := []
                selfType := "_INNER"
                whereBounds := ts.traits } ]

/-- Embeds the loop of `TraitSet::render_generic` that builds
`unbound_generics` from a clone of `generics`: for a `GenericParam::Type`
with non-empty bounds, `ty.bounds.clear()`; every other parameter kind
(lifetimes and const parameters) passes through unchanged. -/
def clearTypeBounds : GenericParam → GenericParam
  | .typeParam n bounds => if bounds.isEmpty then .typeParam n bounds else .typeParam n []
  | p => p

/-- Embeds `TraitSet::render_generic`: the trait declaration carries the
original (bound-carrying) parameters, and the blanket implementation uses
`impl<#bound_generics, _INNER> #alias_name<#unbound_generics> for _INNER`. -/
def TraitSet.render_generic (ts : TraitSet) : List Item :=
  let unbound_generics := ts.generics.params.map clearTypeBounds
  let bound_generics := ts.generics.params
  [ .traitItem { doc := ts.doc_comment
                 visibility := ts.visibility
                 name := ts.alias_name
                 generics := bound_generics
                 supertraits := ts.traits }
  , .implItem { generics := bound_generics ++ [innerParam]
                traitName := ts.alias_name
                traitArgs := unbound_generics
                selfType := "_INNER"
                whereBounds := ts.traits } ]

/-- Embeds `TraitSet::render`: dispatch on `generics.params.is_empty()`. -/
def TraitSet.render (ts : TraitSet) : List Item :=
  if ts.generics.params.isEmpty then ts.render_non_generic else ts.render_generic

/-- Embeds the `ManyTraitSet` struct: the semicolon-separated declarations
in source order. -/
structure ManyTraitSet where
  entries : List TraitSet
deriving DecidableEq, Repr

/-- Embeds `impl Parse for ManyTraitSet` (`input.parse_terminated(TraitSet::parse)`):
parse each declaration left to right, stopping at the first error. -/
def ManyTraitSet.parse : List RawTraitSet → Except ParseError ManyTraitSet
  | [] => .ok { entries := [] }
  | raw :: rest =>
    match TraitSet.parse raw with
    | .error e => .error e
    | .ok ts =>
      match ManyTraitSet.parse rest with
      | .error e => .error e
      | .ok m => .ok { entries := ts :: m.entries }

/-- Embeds `ManyTraitSet::render`: `TokenStream2::from_iter` over the
per-entry renders, i.e. the concatenation of the fragments in order with
nothing between them. -/
def ManyTraitSet.render (m : ManyTraitSet) : List Item :=
  (m.entries.map TraitSet.render).flatten

/-- Embeds the `trait_set` entry point: `parse_macro_input!` (abort with the
parse error, emitting no output) followed by `input.render()`. -/
def trait_set (input : List RawTraitSet) : Except ParseError (List Item) :=
  (ManyTraitSet.parse input).map ManyTraitSet.render

/-- Specification helper: the string payload of a documentation-flavored
attribute — a name-value meta whose single-segment path is `doc` and whose
value is a string literal — and `none` for every other attribute shape
(`#[doc(hidden)]`, `#[doc = 42]`, non-doc attributes, malformed attributes). -/
def docStringOf : Attribute → Option String
  | .meta (.nameValue path (.str value)) =>
      if pathGetIdent path = some "doc" then some value else none
  | _ => none

/-- The payloads of the documentation-flavored attributes, in source order. -/
def docStrings (attrs : List Attribute) : List String :=
  attrs.filterMap docStringOf

/-- Each payload followed by the newline `parse_doc` pushes after it. -/
def docConcat : List String → String
  | [] => ""
  | s :: rest => s ++ "\n" ++ docConcat rest

/-- True when `parse_meta` succeeds on every attribute of the list. -/
def allMetaOk (attrs : List Attribute) : Bool :=
  attrs.all fun a => match a with | .meta _ => true | .malformed _ => false

/-- Concrete input: the alias `pub trait ThreadSafe = Send + Sync;` of the
crate documentation (no generics). -/
def threadSafeAlias : TraitSet :=
  { doc_comment := none
    visibility := { tokens := "pub" }
    alias_name := "ThreadSafe"
    generics := { params := [], whereClause := none }
    traits := ["Send", "Sync"] }

/-- Concrete input: the alias `pub trait GenericIterator<T> = Iterator<Item = T>;`
of the crate documentation (one unbounded type parameter). -/
def genericIteratorAlias : TraitSet :=
  { doc_comment := none
    visibility := { tokens := "pub" }
    alias_name := "GenericIterator"
    generics := { params := [GenericParam.typeParam "T" []], whereClause := none }
    traits := ["Iterator<Item = T>"] }

/-- Concrete input: the alias `trait Alias<'a: 'static> = Send;`, whose
lifetime parameter (embedded name `a`) carries the inline lifetime bound
`'static` (embedded as `static`). -/
def boundedLifetimeAlias : TraitSet :=
  { doc_comment := none
    visibility := { tokens := "" }
    alias_name := "Alias"
    generics := { params := [GenericParam.lifetime "a" ["static"]], whereClause := none }
    traits := ["Send"] }

/-- Concrete input: an alias whose user-declared type parameter is itself
named `_INNER`, the literal name the source uses for the implementing
parameter. -/
def innerShadowingAlias : TraitSet :=
  { doc_comment := none
    visibility := { tokens := "" }
    alias_name := "Alias"
    generics := { params := [GenericParam.typeParam "_INNER" []], whereClause := none }
    traits := ["Send"] }

/-- Concrete input: the raw declaration `trait Foo<T> where T: Clone = Send;`,
carrying a where clause. -/
def whereClauseInput : RawTraitSet :=
  { attrs := []
    visibility := { tokens := "" }
    alias_name := "Foo"
    generics := { params := [GenericParam.typeParam "T" []], whereClause := some "where T: Clone" }
    traits := ["Send"] }

/-- Concrete input: a well-formed raw declaration `trait Good = Send;`. -/
def goodInput : RawTraitSet :=
  { attrs := []
    visibility := { tokens := "" }
    alias_name := "Good"
    generics := { params := [], whereClause := none }
    traits := ["Send"] }

/-- Concrete input: two documentation attributes with payloads `a` and `b`. -/
def docAttrsAB : List Attribute :=
  [ Attribute.meta (Meta.nameValue ["doc"] (Lit.str "a"))
  , Attribute.meta (Meta.nameValue ["doc"] (Lit.str "b")) ]

/-- A step of the `parse_doc` loop on a well-formed attribute appends the
payload plus newline exactly when the attribute is documentation-flavored. -/
theorem parseDocLoop_meta_cons (m : Meta) (rest : List Attribute) (out : String) :
    parseDocLoop (Attribute.meta m :: rest) out =
      match docStringOf (Attribute.meta m) with
      | some s => parseDocLoop rest (out ++ s ++ "\n")
      | none => parseDocLoop rest out := by
  cases m with
  | nameValue path lit =>
    cases hp : pathGetIdent path with
    | none => cases lit <;> simp [parseDocLoop, docStringOf, Attribute.parseMeta, hp]
    | some ident =>
      by_cases hid : ident = "doc"
      · cases lit <;> simp [parseDocLoop, docStringOf, Attribute.parseMeta, hp, hid]
      · cases lit <;> simp [parseDocLoop, docStringOf, Attribute.parseMeta, hp, hid]
  | list path => simp [parseDocLoop, docStringOf, Attribute.parseMeta]
  | path path => simp [parseDocLoop, docStringOf, Attribute.parseMeta]

/-- On a list of well-formed attributes, the `parse_doc` loop returns the
accumulator extended by the newline-terminated payloads in source order. -/
theorem parseDocLoop_ok (attrs : List Attribute) (h : allMetaOk attrs = true)
    (out : String) : parseDocLoop attrs out = .ok (out ++ docConcat (docStrings attrs)) := by
  induction attrs generalizing out with
  | nil => simp [parseDocLoop, docStrings, docConcat]
  | cons a rest ih =>
    rw [allMetaOk, List.all_cons, Bool.and_eq_true] at h
    obtain ⟨ha, hrest⟩ := h
    cases a with
    | malformed e => simp at ha
    | meta m =>
      rw [parseDocLoop_meta_cons]
      cases hds : docStringOf (Attribute.meta m) with
      | none =>
        show parseDocLoop rest out = _
        rw [ih hrest out]
        simp [docStrings, List.filterMap_cons, hds]
      | some s =>
        show parseDocLoop rest (out ++ s ++ "\n") = _
        rw [ih hrest (out ++ s ++ "\n")]
        simp [docStrings, List.filterMap_cons, hds, docConcat, String.append_assoc]

/-- `parse_doc` on well-formed attributes: the accumulated documentation is
the newline-joined payload concatenation, reported as present exactly when
at least one documentation-flavored attribute exists. -/
theorem parse_doc_ok (attrs : List Attribute) (h : allMetaOk attrs = true) :
    parse_doc attrs =
      .ok (if docStrings attrs = [] then none else some (docConcat (docStrings attrs))) := by
  rw [parse_doc, parseDocLoop_ok attrs h ""]
  rw [show ("" ++ docConcat (docStrings attrs)) = docConcat (docStrings attrs) from
    String.empty_append _]
  show Except.ok _ = _
  congr 1
  cases hds : docStrings attrs with
  | nil => simp [docConcat]
  | cons s ds =>
    have hne : docConcat (s :: ds) ≠ "" := by
      intro hc
      have hlen := congrArg String.length hc
      rw [docConcat, String.length_append, String.length_append] at hlen
      have h1 : ("\n" : String).length = 1 := rfl
      rw [h1] at hlen
      simp at hlen
    simp [hne]

/-- Keeping only documentation-flavored attributes keeps every payload. -/
theorem docStrings_filter (attrs : List Attribute) :
    docStrings (attrs.filter fun a => (docStringOf a).isSome) = docStrings attrs := by
  induction attrs with
  | nil => rfl
  | cons a rest ih =>
    by_cases hm : (docStringOf a).isSome
    · obtain ⟨s, hs⟩ := Option.isSome_iff_exists.mp hm
      simp [docStrings, List.filter_cons, hm, List.filterMap_cons, hs] at ih ⊢
      exact ih
    · have hnone : docStringOf a = none := Option.not_isSome_iff_eq_none.mp hm
      simp [docStrings, List.filter_cons, hm, List.filterMap_cons, hnone] at ih ⊢
      exact ih

/-- Every documentation-flavored attribute is a well-formed meta item, so
the filtered attribute list always meta-parses. -/
theorem allMetaOk_filter (attrs : List Attribute) :
    allMetaOk (attrs.filter fun a => (docStringOf a).isSome) = true := by
  induction attrs with
  | nil => rfl
  | cons a rest ih =>
    cases a with
    | malformed e =>
      simpa [List.filter_cons, docStringOf] using ih
    | meta m =>
      by_cases hm : (docStringOf (Attribute.meta m)).isSome
      · simpa [List.filter_cons, hm, allMetaOk] using ih
      · simpa [List.filter_cons, hm] using ih

/-- Parsing a batch preserves the number of declarations. -/
theorem manyParse_length (input : List RawTraitSet) (m : ManyTraitSet)
    (h : ManyTraitSet.parse input = .ok m) : m.entries.length = input.length := by
  induction input generalizing m with
  | nil =>
    rw [ManyTraitSet.parse] at h
    cases h
    rfl
  | cons r rest ih =>
    rw [ManyTraitSet.parse] at h
    split at h
    · exact absurd h (by simp)
    · split at h
      · exact absurd h (by simp)
      · rename_i ts hts m' hm'
        cases h
        simp [ih m' hm']

/-- The batch parser propagates the first declaration error, provided every
earlier declaration parses. -/
theorem manyParse_first_error (pre post : List RawTraitSet) (bad : RawTraitSet)
    (e : ParseError)
    (hpre : ∀ r ∈ pre, ∃ ts, TraitSet.parse r = .ok ts)
    (hbad : TraitSet.parse bad = .error e) :
    ManyTraitSet.parse (pre ++ bad :: post) = .error e := by
  induction pre with
  | nil =>
    rw [List.nil_append, ManyTraitSet.parse, hbad]
  | cons r pre ih =>
    obtain ⟨ts, hts⟩ := hpre r (List.mem_cons_self r pre)
    have hpre2 : ∀ x ∈ pre, ∃ t, TraitSet.parse x = .ok t := fun x hx =>
      hpre x (List.mem_cons_of_mem r hx)
    rw [List.cons_append, ManyTraitSet.parse, hts, ih hpre2]

/-- C1: evaluation of the code at the failing input `trait Alias<'a: 'static> = Send;`.
The claim says the trait-argument list of the blanket implementation strips
every inline bound, for lifetime parameters as for type parameters.  The
rendering loop clears bounds only on `GenericParam::Type`, so the lifetime
parameter reaches the trait-argument position with its bound still attached
(`impl<'a: 'static, _INNER> Alias<'a: 'static> for _INNER ...`), which is not
valid syntax for a generic-argument list. -/
theorem render_generic_keeps_lifetime_bounds :
    TraitSet.render boundedLifetimeAlias =
      [ Item.traitItem { doc := none, visibility := { tokens := "" }, name := "Alias",
                         generics := [GenericParam.lifetime "a" ["static"]],
                         supertraits := ["Send"] }
      , Item.implItem { generics := [GenericParam.lifetime "a" ["static"], innerParam],
                        traitName := "Alias",
                        traitArgs := [GenericParam.lifetime "a" ["static"]],
                        selfType := "_INNER",
                        whereBounds := ["Send"] } ] ∧
    GenericParam.lifetime "a" ["static"] ≠ GenericParam.lifetime "a" [] :=
  ⟨rfl, by decide⟩

/-- C2: a declaration with an empty generic-parameter list renders to
exactly the documentation attribute (when present, attached to the trait
item), a trait declaration with the declared visibility and name whose
supertraits are the bounds in source order and whose body is empty, and a
blanket implementation of the new trait for the fresh parameter `_INNER`
constrained by the same bounds. -/
theorem render_non_generic_branch (ts : TraitSet) (h : ts.generics.params = []) :
    ts.render =
      [ Item.traitItem { doc := ts.doc_comment, visibility := ts.visibility,
                         name := ts.alias_name, generics := [],
                         supertraits := ts.traits }
      , Item.implItem { generics := [innerParam], traitName := ts.alias_name,
                        traitArgs := [], selfType := "_INNER",
                        whereBounds := ts.traits } ] := by
  unfold TraitSet.render
  rw [h]
  rfl

/-- Witness for C2 at `pub trait ThreadSafe = Send + Sync;`. -/
theorem render_non_generic_branch_witness :
    threadSafeAlias.generics.params = [] ∧
      threadSafeAlias.render =
        [ Item.traitItem { doc := none, visibility := { tokens := "pub" },
                           name := "ThreadSafe", generics := [],
                           supertraits := ["Send", "Sync"] }
        , Item.implItem { generics := [innerParam], traitName := "ThreadSafe",
                          traitArgs := [], selfType := "_INNER",
                          whereBounds := ["Send", "Sync"] } ] :=
  ⟨rfl, render_non_generic_branch threadSafeAlias rfl⟩

/-- C3: a declaration with a non-empty generic-parameter list renders a
blanket implementation whose own generic-parameter list is the original
user-declared parameters with inline bounds retained, in source order,
followed by the implementing parameter `_INNER` appended after all of them
(so every user lifetime parameter precedes `_INNER`). -/
theorem render_generic_impl_parameter_order (ts : TraitSet)
    (h : ts.generics.params ≠ []) :
    ts.render =
      [ Item.traitItem { doc := ts.doc_comment, visibility := ts.visibility,
                         name := ts.alias_name, generics := ts.generics.params,
                         supertraits := ts.traits }
      , Item.implItem { generics := ts.generics.params ++ [innerParam],
                        traitName := ts.alias_name,
                        traitArgs := ts.generics.params.map clearTypeBounds,
                        selfType := "_INNER",
                        whereBounds := ts.traits } ] := by
  unfold TraitSet.render
  rw [if_neg (by simpa using h)]
  rfl

/-- Witness for C3 at `pub trait GenericIterator<T> = Iterator<Item = T>;`. -/
theorem render_generic_impl_parameter_order_witness :
    genericIteratorAlias.generics.params ≠ [] ∧
      genericIteratorAlias.render =
        [ Item.traitItem { doc := none, visibility := { tokens := "pub" },
                           name := "GenericIterator",
                           generics := [GenericParam.typeParam "T" []],
                           supertraits := ["Iterator<Item = T>"] }
        , Item.implItem { generics := [GenericParam.typeParam "T" [], innerParam],
                          traitName := "GenericIterator",
                          traitArgs := [GenericParam.typeParam "T" []],
                          selfType := "_INNER",
                          whereBounds := ["Iterator<Item = T>"] } ] :=
  ⟨by decide, render_generic_impl_parameter_order genericIteratorAlias (by decide)⟩

/-- C4: a declaration whose generic-parameter list carries a supplementary
where clause is rejected (once its attributes meta-parse, which the source
checks first) with an error spanning the where clause and carrying the fixed
message, and the macro invocation containing it produces no output. -/
theorem parse_rejects_where_clause (raw : RawTraitSet) (wc : String)
    (d : Option String) (hdoc : parse_doc raw.attrs = .ok d)
    (hwc : raw.generics.whereClause = some wc) :
    TraitSet.parse raw =
        .error (.whereClauseError wc "Where clause is not allowed for trait alias") ∧
      trait_set [raw] =
        .error (.whereClauseError wc "Where clause is not allowed for trait alias") := by
  have h1 : TraitSet.parse raw =
      .error (.whereClauseError wc "Where clause is not allowed for trait alias") := by
    unfold TraitSet.parse
    rw [hdoc, hwc]
  refine ⟨h1, ?_⟩
  rw [trait_set, ManyTraitSet.parse, h1]
  rfl

/-- Witness for C4 at `trait Foo<T> where T: Clone = Send;`. -/
theorem parse_rejects_where_clause_witness :
    parse_doc whereClauseInput.attrs = .ok none ∧
      whereClauseInput.generics.whereClause = some "where T: Clone" ∧
      (TraitSet.parse whereClauseInput =
          .error (.whereClauseError "where T: Clone"
            "Where clause is not allowed for trait alias") ∧
        trait_set [whereClauseInput] =
          .error (.whereClauseError "where T: Clone"
            "Where clause is not allowed for trait alias")) :=
  ⟨rfl, rfl, parse_rejects_where_clause whereClauseInput "where T: Clone" none rfl rfl⟩

/-- C6: when a batch parses, the macro output is exactly the concatenation,
in declaration order and with nothing in between, of the independently
rendered fragments, one per input declaration; the empty batch yields empty
output with no error (the witness below instantiates that case). -/
theorem trait_set_concatenates_fragments (input : List RawTraitSet)
    (m : ManyTraitSet) (h : ManyTraitSet.parse input = .ok m) :
    trait_set input = .ok ((m.entries.map TraitSet.render).flatten) ∧
      m.entries.length = input.length := by
  constructor
  · rw [trait_set, h]
    rfl
  · exact manyParse_length input m h

/-- Witness for C6 at the empty batch: empty output, no error. -/
theorem trait_set_concatenates_fragments_witness :
    ManyTraitSet.parse [] = .ok { entries := [] } ∧
      (trait_set [] = .ok (((({ entries := [] } : ManyTraitSet).entries.map
          TraitSet.render).flatten)) ∧
        ({ entries := [] } : ManyTraitSet).entries.length = ([] : List RawTraitSet).length) :=
  ⟨rfl, trait_set_concatenates_fragments [] { entries := [] } rfl⟩

/-- C7: if a declaration of the batch fails to parse while every earlier
declaration parses, the macro aborts with exactly that first error and emits
no output fragment at all, the successfully parsed earlier declarations
included. -/
theorem trait_set_aborts_on_first_error (pre post : List RawTraitSet)
    (bad : RawTraitSet) (e : ParseError)
    (hpre : ∀ r ∈ pre, ∃ ts, TraitSet.parse r = .ok ts)
    (hbad : TraitSet.parse bad = .error e) :
    trait_set (pre ++ bad :: post) = .error e := by
  rw [trait_set, manyParse_first_error pre post bad e hpre hbad]
  rfl

/-- Witness for C7: a batch whose first declaration parses and whose second
carries a where clause expands to that error alone. -/
theorem trait_set_aborts_on_first_error_witness :
    (∀ r ∈ [goodInput], ∃ ts, TraitSet.parse r = .ok ts) ∧
      TraitSet.parse whereClauseInput =
        .error (.whereClauseError "where T: Clone"
          "Where clause is not allowed for trait alias") ∧
      trait_set ([goodInput] ++ whereClauseInput :: []) =
        .error (.whereClauseError "where T: Clone"
          "Where clause is not allowed for trait alias") :=
  have hpre : ∀ r ∈ [goodInput], ∃ ts, TraitSet.parse r = .ok ts := by
    intro r hr
    rw [List.mem_singleton] at hr
    subst hr
    exact ⟨_, rfl⟩
  ⟨hpre, rfl, trait_set_aborts_on_first_error [goodInput] [] whereClauseInput _ hpre rfl⟩

/-- C5: the synthesized documentation is the source-order concatenation of
the documentation-attribute payloads, one trailing newline appended after
each, and is absent exactly when no such attribute exists (stated for
attribute lists whose meta items all parse, which the source requires before
reaching the concatenation). -/
theorem parse_doc_newline_joined (attrs : List Attribute)
    (h : allMetaOk attrs = true) :
    parse_doc attrs =
      .ok (if docStrings attrs = [] then none
           else some (docConcat (docStrings attrs))) :=
  parse_doc_ok attrs h

/-- Witness for C5 at payloads `a` then `b`: documentation `a\nb\n`. -/
theorem parse_doc_newline_joined_witness :
    allMetaOk docAttrsAB = true ∧
      parse_doc docAttrsAB =
        .ok (if docStrings docAttrsAB = [] then none
             else some (docConcat (docStrings docAttrsAB))) ∧
      docConcat (docStrings docAttrsAB) = "a\nb\n" :=
  ⟨rfl, parse_doc_newline_joined docAttrsAB rfl, rfl⟩

/-- C8 counterexample: the implementing parameter is the fixed name `_INNER`,
so a user-declared parameter of that very name collides with it — the
rendered blanket implementation declares two generic parameters with the
same name. -/
theorem inner_param_collides_with_user_inner :
    TraitSet.render innerShadowingAlias =
      [ Item.traitItem { doc := none, visibility := { tokens := "" },
                         name := "Alias",
                         generics := [GenericParam.typeParam "_INNER" []],
                         supertraits := ["Send"] }
      , Item.implItem { generics := [GenericParam.typeParam "_INNER" [], innerParam],
                        traitName := "Alias",
                        traitArgs := [GenericParam.typeParam "_INNER" []],
                        selfType := "_INNER",
                        whereBounds := ["Send"] } ] ∧
    innerParam.name ∈ innerShadowingAlias.generics.params.map GenericParam.name ∧
    ¬ (([GenericParam.typeParam "_INNER" [], innerParam]).map GenericParam.name).Nodup :=
  ⟨rfl, by decide, by decide⟩

/-- C8 (amended): the implementing parameter of the rendered blanket
implementation is distinct from every user-declared generic-parameter name,
provided the user did not themselves declare a parameter named `_INNER`. -/
theorem inner_param_fresh_without_shadowing (ts : TraitSet)
    (h : "_INNER" ∉ ts.generics.params.map GenericParam.name) :
    ∃ td : TraitDecl, ∃ impl : ImplDecl,
      ts.render = [Item.traitItem td, Item.implItem impl] ∧
      impl.generics = ts.generics.params ++ [innerParam] ∧
      ∀ p ∈ ts.generics.params, p.name ≠ innerParam.name := by
  have hfresh : ∀ p ∈ ts.generics.params, p.name ≠ innerParam.name := by
    intro p hp heq
    apply h
    have hmem : GenericParam.name p ∈ ts.generics.params.map GenericParam.name :=
      List.mem_map_of_mem GenericParam.name hp
    rw [heq] at hmem
    exact hmem
  by_cases hempty : ts.generics.params.isEmpty
  · have hnil : ts.generics.params = [] := by simpa using hempty
    refine ⟨{ doc := ts.doc_comment, visibility := ts.visibility,
              name := ts.alias_name, generics := [], supertraits := ts.traits },
            { generics := [innerParam], traitName := ts.alias_name,
              traitArgs := [], selfType := "_INNER", whereBounds := ts.traits },
            ?_, ?_, hfresh⟩
    · unfold TraitSet.render
      rw [if_pos hempty]
      rfl
    · rw [hnil]
      rfl
  · refine ⟨{ doc := ts.doc_comment, visibility := ts.visibility,
              name := ts.alias_name, generics := ts.generics.params,
              supertraits := ts.traits },
            { generics := ts.generics.params ++ [innerParam],
              traitName := ts.alias_name,
              traitArgs := ts.generics.params.map clearTypeBounds,
              selfType := "_INNER", whereBounds := ts.traits },
            ?_, ?_, hfresh⟩
    · unfold TraitSet.render
      rw [if_neg hempty]
      rfl
    · rfl

/-- Witness for C8 (amended) at `pub trait GenericIterator<T> = ...`, whose
single parameter `T` is not named `_INNER`. -/
theorem inner_param_fresh_without_shadowing_witness :
    "_INNER" ∉ genericIteratorAlias.generics.params.map GenericParam.name ∧
      ∃ td : TraitDecl, ∃ impl : ImplDecl,
        genericIteratorAlias.render = [Item.traitItem td, Item.implItem impl] ∧
        impl.generics = genericIteratorAlias.generics.params ++ [innerParam] ∧
        ∀ p ∈ genericIteratorAlias.generics.params, p.name ≠ innerParam.name :=
  ⟨by decide, inner_param_fresh_without_shadowing genericIteratorAlias (by decide)⟩

/-- C9 counterexample: an attribute that is not documentation-flavored is
not always discarded silently — an attribute on which `parse_meta` fails
(such as `#[foo = bar]`, whose right-hand side is not a literal) aborts
parsing with that error instead of being skipped. -/
theorem parse_doc_errors_on_malformed_attribute :
    docStringOf (Attribute.malformed "expected literal") = none ∧
      parse_doc [Attribute.malformed "expected literal"] =
        Except.error "expected literal" :=
  ⟨rfl, rfl⟩

/-- C9 (amended): among attributes whose meta items parse, every attribute
that is not documentation-flavored is discarded silently — removing all of
them changes neither the outcome nor the synthesized documentation. -/
theorem parse_doc_discards_non_doc (attrs : List Attribute)
    (h : allMetaOk attrs = true) :
    parse_doc attrs = parse_doc (attrs.filter fun a => (docStringOf a).isSome) := by
  rw [parse_doc_ok attrs h, parse_doc_ok _ (allMetaOk_filter attrs), docStrings_filter]

/-- Witness for C9 (amended): a doc attribute surrounded by a `#[derive(..)]`-style
list attribute and a bare-path attribute yields the same documentation as the
doc attribute alone. -/
theorem parse_doc_discards_non_doc_witness :
    allMetaOk
        [ Attribute.meta (Meta.list ["derive"])
        , Attribute.meta (Meta.nameValue ["doc"] (Lit.str "a"))
        , Attribute.meta (Meta.path ["inline"]) ] = true ∧
      parse_doc
          [ Attribute.meta (Meta.list ["derive"])
          , Attribute.meta (Meta.nameValue ["doc"] (Lit.str "a"))
          , Attribute.meta (Meta.path ["inline"]) ] =
        parse_doc
          (List.filter (fun a => (docStringOf a).isSome)
            [ Attribute.meta (Meta.list ["derive"])
            , Attribute.meta (Meta.nameValue ["doc"] (Lit.str "a"))
            , Attribute.meta (Meta.path ["inline"]) ]) :=
  ⟨rfl, parse_doc_discards_non_doc _ rfl⟩

/-- C10: on attributes whose meta items parse, the synthesized documentation
is present exactly when some attribute is a name-value `doc = <string literal>`
meta; doc attributes of any other shape (`#[doc(hidden)]`, `#[doc = 42]`)
and non-doc attributes contribute nothing. -/
theorem parse_doc_present_iff (attrs : List Attribute)
    (h : allMetaOk attrs = true) :
    (∃ s, parse_doc attrs = .ok (some s)) ↔ ∃ a ∈ attrs, docStringOf a ≠ none := by
  rw [parse_doc_ok attrs h]
  constructor
  · rintro ⟨s, hs⟩
    by_cases hd : docStrings attrs = []
    · rw [if_pos hd] at hs
      exact absurd hs (by simp)
    · have hnot : ¬ ∀ a ∈ attrs, docStringOf a = none := fun hall =>
        hd (List.filterMap_eq_nil_iff.mpr hall)
      push_neg at hnot
      obtain ⟨a, ha, hne⟩ := hnot
      exact ⟨a, ha, hne⟩
  · rintro ⟨a, ha, hne⟩
    have hd : docStrings attrs ≠ [] := fun hnil =>
      hne (List.filterMap_eq_nil_iff.mp hnil a ha)
    rw [if_neg hd]
    exact ⟨docConcat (docStrings attrs), rfl⟩

/-- Witness for C10: `#[doc(hidden)]` and `#[doc = 42]` alone yield no
documentation presence, while adding `#[doc = "a"]` yields presence. -/
theorem parse_doc_present_iff_witness :
    allMetaOk
        [ Attribute.meta (Meta.list ["doc"])
        , Attribute.meta (Meta.nameValue ["doc"] Lit.other)
        , Attribute.meta (Meta.nameValue ["doc"] (Lit.str "a")) ] = true ∧
      ((∃ s, parse_doc
            [ Attribute.meta (Meta.list ["doc"])
            , Attribute.meta (Meta.nameValue ["doc"] Lit.other)
            , Attribute.meta (Meta.nameValue ["doc"] (Lit.str "a")) ] = .ok (some s)) ↔
        ∃ a ∈ [ Attribute.meta (Meta.list ["doc"])
              , Attribute.meta (Meta.nameValue ["doc"] Lit.other)
              , Attribute.meta (Meta.nameValue ["doc"] (Lit.str "a")) ],
          docStringOf a ≠ none) :=
  ⟨rfl, parse_doc_present_iff _ rfl⟩

end TraitSetCrate
